import Mathlib

/-
Verification of the CSV ingestion / domain-valuation pipeline
(src/unnamed/part_004 `CSVService`, src/services/godaddyService.js
`GoDaddyService`) against its specification.

Modelling conventions:
- JS numbers are modelled as `ℚ` (every value appearing in this pipeline is
  an exact decimal), JS 32-bit integer operations as `ℤ` with explicit
  wrap-around, counters as `ℕ`.
- `null`/`undefined` are modelled as `Option`.
- JS string methods (`trim`, `toLowerCase`, `split`, `includes`, `endsWith`)
  are modelled directly on character lists (the relevant strings here are
  ASCII, where the JS and Unicode-codepoint views agree).
- Host numeric parsers (`parseFloat`, `parseInt`) are modelled on the
  fragment of their semantics exercised by this code (optional sign, decimal
  digits, optional fraction, trailing garbage ignored; exponents and
  `Infinity` do not occur in its inputs).
- Rejected promises / thrown errors are modelled with `Except`; external
  collaborators (GoDaddy HTTP lookup, Supabase) are oracle parameters.
-/

namespace MyBackend

/-! ## JS primitives -/

/-- JS `Math.round`: round half toward positive infinity. -/
def jsRound (q : ℚ) : ℤ := ⌊q + 1/2⌋

/-- JS `%` on integers: remainder truncated toward zero (sign of the dividend). -/
def jsRem (a b : ℤ) : ℤ := Int.tmod a b

/-- JS `String.prototype.trim`. -/
def jsTrim (s : String) : String :=
  String.mk (((s.toList.dropWhile (fun c => c.isWhitespace)).reverse.dropWhile
    (fun c => c.isWhitespace)).reverse)

/-- JS `String.prototype.toLowerCase` (ASCII fragment). -/
def jsToLower (s : String) : String := String.mk (s.toList.map Char.toLower)

/-- Does `sub` occur at the head of `l`? -/
def headMatch : List Char → List Char → Bool
  | [], _ => true
  | _ :: _, [] => false
  | a :: as, b :: bs => a == b && headMatch as bs

/-- Does `sub` occur somewhere inside `l`? -/
def occursIn (sub : List Char) : List Char → Bool
  | [] => sub.isEmpty
  | c :: cs => headMatch sub (c :: cs) || occursIn sub cs

/-- JS `String.prototype.includes`. -/
def strContains (s sub : String) : Bool := occursIn sub.toList s.toList

/-- JS `String.prototype.endsWith`. -/
def strEndsWith (s sub : String) : Bool := headMatch sub.toList.reverse s.toList.reverse

/-- JS `String.prototype.split` with a single-character separator
(accumulator holds the current field in reverse). -/
def splitCharAux (sep : Char) : List Char → List Char → List String
  | [], acc => [String.mk acc.reverse]
  | c :: cs, acc =>
    if c == sep then String.mk acc.reverse :: splitCharAux sep cs []
    else splitCharAux sep cs (c :: acc)

/-- JS `s.split(sep)` for a one-character separator (always non-empty). -/
def splitChar (s : String) (sep : Char) : List String := splitCharAux sep s.toList []

/-- Numeric value of a decimal digit character. -/
def digitVal (c : Char) : ℕ := c.toNat - Char.toNat '0'

/-- Fold a digit string into a natural number. -/
def digitsToNat (ds : List Char) : ℕ := ds.foldl (fun a c => 10 * a + digitVal c) 0

/-- JS `parseFloat`, on the fragment used by this pipeline: optional leading
whitespace, optional sign, decimal digits with an optional fractional part;
trailing garbage is ignored; no digits at all gives `NaN` (modelled as
`none`). -/
def parseFloatJS (s : String) : Option ℚ :=
  let cs := s.toList.dropWhile (fun c => c.isWhitespace)
  let signed : ℚ × List Char :=
    match cs with
    | '-' :: rest => (-1, rest)
    | '+' :: rest => (1, rest)
    | rest => (1, rest)
  let intDigits := signed.2.takeWhile (fun c => c.isDigit)
  let afterInt := signed.2.dropWhile (fun c => c.isDigit)
  let fracDigits :=
    match afterInt with
    | '.' :: r => r.takeWhile (fun c => c.isDigit)
    | _ => []
  if intDigits.isEmpty && fracDigits.isEmpty then none
  else
    some (signed.1 *
      ((digitsToNat intDigits : ℚ) + (digitsToNat fracDigits : ℚ) / 10 ^ fracDigits.length))

/-- JS `parseInt` with radix 10, on the fragment used here: optional leading
whitespace, optional sign, decimal digits; no digits gives `NaN` (modelled
as `none`). -/
def parseIntJS (s : String) : Option ℤ :=
  let cs := s.toList.dropWhile (fun c => c.isWhitespace)
  let signed : ℤ × List Char :=
    match cs with
    | '-' :: rest => (-1, rest)
    | '+' :: rest => (1, rest)
    | rest => (1, rest)
  let digits := signed.2.takeWhile (fun c => c.isDigit)
  if digits.isEmpty then none
  else some (signed.1 * (digitsToNat digits : ℤ))

/-! ## Price normalizer (`CSVService.parsePrice`, src/unnamed/part_004:142-185) -/

/-- Characters removed by `cleanPrice.replace(/[$,£€¥]/g, '')`
(src/unnamed/part_004:150). NOTE: the character class contains a comma, so
this step removes every comma from the string. -/
def isCurrencySymbol (c : Char) : Bool :=
  c == '$' || c == ',' || c == '£' || c == '€' || c == '¥'

/-- The comma-disambiguation step of `CSVService.parsePrice`
(src/unnamed/part_004:153-165): if the text after the first comma is at most
2 characters long, the first comma becomes a period, otherwise all commas
are removed. (In the program this branch is dead code, because the
currency-symbol replace on line 150 has already removed every comma.) -/
def commaStep (cs : List Char) : List Char :=
  if cs.contains ',' then
    let pre := cs.takeWhile (fun c => c != ',')
    let afterComma := (cs.dropWhile (fun c => c != ',')).drop 1
    if afterComma.length ≤ 2 then
      pre ++ '.' :: afterComma
    else
      cs.filter (fun c => c != ',')
  else cs

/-- `CSVService.parsePrice`: falsy input gives `null`; otherwise trim, strip
currency symbols (a regex that also strips every comma), comma
disambiguation, strip whitespace, `parseFloat`; `NaN` becomes `null`. -/
def parsePrice (priceStr : Option String) : Option ℚ :=
  match priceStr with
  | none => none
  | some s =>
    if s = "" then none
    else
      let cleaned := (jsTrim s).toList.filter (fun c => !isCurrencySymbol c)
      let cleaned := commaStep cleaned
      let cleaned := cleaned.filter (fun c => !c.isWhitespace)
      parseFloatJS (String.mk cleaned)

/-- C1: `parsePrice` comma handling, evaluated at the inputs named by the
claim. The currency-symbol regex `[$,£€¥]` on line 150 contains a comma, so
every comma is removed before the decimal-separator branch can run: the
decimal-comma half of the claim fails ("10,6" parses to 106, not 10.6),
while the thousands-separator half holds. -/
theorem parsePrice_comma_eval :
    parsePrice (some "10,6") = some 106
    ∧ parsePrice (some "10,600") = some 10600
    ∧ parsePrice (some "1,234.56") = some (123456 / 100 : ℚ)
    ∧ parsePrice (some "10,6") ≠ some (106 / 10 : ℚ) := by
  have h1 : parsePrice (some "10,6") =
      some ((1 : ℚ) * (((106 : ℕ) : ℚ) + ((0 : ℕ) : ℚ) / 10 ^ (0 : ℕ))) := rfl
  have h2 : parsePrice (some "10,600") =
      some ((1 : ℚ) * (((10600 : ℕ) : ℚ) + ((0 : ℕ) : ℚ) / 10 ^ (0 : ℕ))) := rfl
  have h3 : parsePrice (some "1,234.56") =
      some ((1 : ℚ) * (((1234 : ℕ) : ℚ) + ((56 : ℕ) : ℚ) / 10 ^ (2 : ℕ))) := rfl
  refine ⟨?_, ?_, ?_, ?_⟩
  · rw [h1]; norm_num
  · rw [h2]; norm_num
  · rw [h3]; norm_num
  · rw [h1]; intro h; rw [Option.some_inj] at h; norm_num at h

/-! ## Scorer (`CSVService.calculateScore` src/unnamed/part_004:226-275,
`calculateBrandability` 278-297, `calculateMarketDemand` 300-323,
`calculateEnhancedScore` 548-605) -/

/-- `domain.split('.')[0]` — the domain's label. -/
def domainLabel (domain : String) : String := (splitChar domain '.').headD ""

/-- `domain.split('.').pop()` — the domain's top-level domain. -/
def domainTld (domain : String) : String := (splitChar domain '.').getLastD ""

/-- Length factor (part_004:230-234). -/
def lengthFactor (length : ℤ) : ℚ :=
  if length ≤ 3 then 40
  else if length ≤ 5 then 30
  else if length ≤ 7 then 20
  else if length ≤ 10 then 10
  else 5

/-- TLD lookup table `tldScores` (part_004:237-242), default 50. -/
def tldScore (tld : String) : ℚ :=
  if tld = "com" then 100
  else if tld = "net" then 80
  else if tld = "org" then 75
  else if tld = "io" then 85
  else if tld = "co" then 70
  else if tld = "tech" then 65
  else if tld = "app" then 70
  else if tld = "dev" then 60
  else if tld = "ai" then 90
  else if tld = "cloud" then 75
  else 50

/-- `premiumKeywords` (part_004:246). -/
def premiumKeywords : List String :=
  [ "tech", "digital", "web", "app", "smart", "cloud", "data", "ai", "cyber",
    "future", "global", "world", "hub", "pro", "lab", "studio", "agency",
    "solutions", "systems", "works", "group"]

/-- Keyword factor (part_004:246-251): 15 per premium keyword occurring as a
substring of the label. -/
def keywordScore (domainName : String) : ℚ :=
  ((premiumKeywords.filter (fun keyword => strContains domainName keyword)).length : ℚ) * 15

/-- Vowel of `/[aeiou]/i`. -/
def isVowel (c : Char) : Bool :=
  let l := c.toLower
  l == 'a' || l == 'e' || l == 'i' || l == 'o' || l == 'u'

/-- Consonant of `/[bcdfghjklmnpqrstvwxyz]/i`. -/
def isConsonant (c : Char) : Bool :=
  let l := c.toLower
  l == 'b' || l == 'c' || l == 'd' || l == 'f' || l == 'g' || l == 'h' ||
  l == 'j' || l == 'k' || l == 'l' || l == 'm' || l == 'n' || l == 'p' ||
  l == 'q' || l == 'r' || l == 's' || l == 't' || l == 'v' || l == 'w' ||
  l == 'x' || l == 'y' || l == 'z'

/-- `n` consecutive characters satisfying `p` starting at the head. -/
def startsWithRun (p : Char → Bool) : ℕ → List Char → Bool
  | 0, _ => true
  | _ + 1, [] => false
  | n + 1, c :: cs => p c && startsWithRun p n cs

/-- `n` consecutive characters satisfying `p` somewhere in the list
(the match of `/X{n,}/`). -/
def hasRun (p : Char → Bool) (n : ℕ) (cs : List Char) : Bool :=
  cs.tails.any (startsWithRun p n)

/-- The match of `/(.)\1{2,}/`: some character repeated at least three times
consecutively (case-sensitive; `.` also matches the ASCII text handled
here). -/
def hasTripleRepeat : List Char → Bool
  | a :: b :: c :: rest => (a == b && b == c) || hasTripleRepeat (b :: c :: rest)
  | _ => false

/-- `CSVService.calculateBrandability` (part_004:278-297). -/
def calculateBrandability (name : String) : ℚ :=
  let cs := name.toList
  let score : ℚ :=
    (if startsWithRun isVowel 2 cs then 10 else 0)
    + (if hasRun isVowel 3 cs then 5 else 0)
    + (if startsWithRun isConsonant 2 cs then 8 else 0)
    - (if hasRun isConsonant 4 cs then 5 else 0)
    - (if hasTripleRepeat cs then 10 else 0)
    - (if cs.any (fun c => c.isDigit) then 5 else 0)
    - (if cs.contains '-' then 8 else 0)
  max (-20) (min 20 score)

/-- `CSVService.calculateMarketDemand` (part_004:300-323). -/
def calculateMarketDemand (name tld : String) : ℚ :=
  let score : ℚ :=
    (if ["tech", "ai", "dev", "app"].contains tld &&
        ["tech", "digital", "web", "app", "smart", "cloud", "data", "ai",
          "cyber"].any (fun keyword => strContains name keyword)
      then 20 else 0)
    + (if ["io", "co"].contains tld &&
          ["startup", "hub", "pro", "lab", "studio", "agency"].any
            (fun keyword => strContains name keyword)
        then 15 else 0)
    + (if ["ai", "ml", "blockchain", "crypto", "nft", "metaverse",
            "web3"].any (fun keyword => strContains name keyword)
        then 25 else 0)
  min 30 score

/-- Price factor of `calculateScore` (part_004:262-264); `price && price > x`
is false for `null` and for `0`, and the `> x` thresholds are all positive,
so the `Option` match is equivalent. -/
def priceFactor (price : Option ℚ) : ℚ :=
  match price with
  | none => 0
  | some p => if 1000 < p then 20 else if 500 < p then 15 else if 100 < p then 10 else 0

/-- Status factor (part_004:267-269 and 597-599); an empty (falsy) status
contains none of the keywords, so the truthiness guard is absorbed. -/
def statusFactor (status : String) : ℚ :=
  if strContains (jsToLower status) "premium" then 20
  else if strContains (jsToLower status) "available" then 15
  else if strContains (jsToLower status) "soon" then 10
  else 0

/-- Final adjustments shared by both scorers (part_004:272-274 and 602-604):
clamp to [10, 100], then `Math.round`. -/
def finalAdjust (baseScore : ℚ) : ℤ := jsRound (min 100 (max 10 baseScore))

/-- `CSVService.calculateScore` (part_004:226-275). -/
def calculateScore (domain : String) (price : Option ℚ) (length : ℤ) (status : String) : ℤ :=
  finalAdjust
    (lengthFactor length
      + tldScore (domainTld domain) / 10
      + keywordScore (domainLabel domain)
      + calculateBrandability (domainLabel domain)
      + calculateMarketDemand (domainLabel domain) (domainTld domain)
      + priceFactor price
      + statusFactor status)

/-- Shape of the object returned by `CSVService.checkDomainAvailability`
(part_004:531-536), consumed by `calculateEnhancedScore`. -/
structure Availability where
  available : Bool
  status : String
  price : Option ℚ
  currency : String
deriving DecidableEq

/-- Enhanced price ladder of `calculateEnhancedScore` (part_004:584-587). -/
def enhancedPriceFactor (price : Option ℚ) : ℚ :=
  match price with
  | none => 0
  | some p =>
    if 1000 < p then 25 else if 500 < p then 20
    else if 100 < p then 15 else if 50 < p then 10 else 0

/-- Availability factor of `calculateEnhancedScore` (part_004:590-594). -/
def availabilityFactor (availability : Option Availability) : ℚ :=
  match availability with
  | none => 0
  | some a =>
    if a.available then
      15 + (if a.status = "Available" then 10
            else if a.status = "Available Soon" then 5 else 0)
    else 0

/-- `CSVService.calculateEnhancedScore` (part_004:548-605). -/
def calculateEnhancedScore (domain : String) (price : Option ℚ) (length : ℤ)
    (status : String) (availability : Option Availability) : ℤ :=
  finalAdjust
    (lengthFactor length
      + tldScore (domainTld domain) / 10
      + keywordScore (domainLabel domain)
      + calculateBrandability (domainLabel domain)
      + calculateMarketDemand (domainLabel domain) (domainTld domain)
      + enhancedPriceFactor price
      + availabilityFactor availability
      + statusFactor status)

/-- The shared clamp-and-round tail keeps every score in [10, 100]. -/
theorem finalAdjust_bounds (q : ℚ) : 10 ≤ finalAdjust q ∧ finalAdjust q ≤ 100 := by
  unfold finalAdjust jsRound
  have h1 : (10 : ℚ) ≤ min 100 (max 10 q) := le_min (by norm_num) (le_max_left _ _)
  have h2 : min 100 (max 10 q) ≤ 100 := min_le_left _ _
  constructor
  · rw [Int.le_floor]; push_cast; linarith
  · have h3 : ⌊min 100 (max 10 q) + 1/2⌋ < 101 := by
      rw [Int.floor_lt]; push_cast; linarith
    omega

/-- C4: both scorer variants return an integer in the closed interval
[10, 100] for every input: both end with `Math.min(100, Math.max(10, s))`
followed by `Math.round`, and rounding cannot leave the clamped interval. -/
theorem scorer_in_range (domain : String) (price : Option ℚ) (length : ℤ)
    (status : String) (availability : Option Availability) :
    (10 ≤ calculateScore domain price length status
      ∧ calculateScore domain price length status ≤ 100)
    ∧ (10 ≤ calculateEnhancedScore domain price length status availability
      ∧ calculateEnhancedScore domain price length status availability ≤ 100) :=
  ⟨finalAdjust_bounds _, finalAdjust_bounds _⟩

/-! ## Estimator (`CSVService.calculateEstimatedValue` src/unnamed/part_004:607-635) -/

/-- TLD base-value table `tldBaseValues` (part_004:614-617), default 500. -/
def tldBaseValue (tld : String) : ℚ :=
  if tld = "com" then 1000
  else if tld = "net" then 800
  else if tld = "org" then 750
  else if tld = "io" then 1200
  else if tld = "co" then 900
  else if tld = "tech" then 600
  else if tld = "app" then 700
  else if tld = "dev" then 500
  else if tld = "ai" then 1500
  else if tld = "cloud" then 800
  else 500

/-- Length multiplier (part_004:624). -/
def lengthMultiplier (length : ℤ) : ℚ :=
  if length ≤ 3 then 3
  else if length ≤ 5 then 2
  else if length ≤ 7 then 3/2
  else if length ≤ 10 then 6/5
  else 1

/-- The raw estimate `baseValue * scoreMultiplier * lengthMultiplier`
(part_004:609-626); `extension || domain.split('.').pop()` falls back to the
domain's TLD when the extension string is empty (falsy). -/
def rawEstimate (domain : String) (score : ℚ) (length : ℤ) (extension : String) : ℚ :=
  tldBaseValue (if extension = "" then domainTld domain else extension)
    * (score / 50) * lengthMultiplier length

/-- `CSVService.calculateEstimatedValue` (part_004:607-635): the raw
estimate rounded to a granularity chosen by its magnitude band. -/
def calculateEstimatedValue (domain : String) (score : ℚ) (length : ℤ)
    (extension : String) : ℤ :=
  if rawEstimate domain score length extension < 100 then
    jsRound (rawEstimate domain score length extension / 10) * 10
  else if rawEstimate domain score length extension < 1000 then
    jsRound (rawEstimate domain score length extension / 50) * 50
  else if rawEstimate domain score length extension < 10000 then
    jsRound (rawEstimate domain score length extension / 100) * 100
  else
    jsRound (rawEstimate domain score length extension / 1000) * 1000

theorem tldBaseValue_pos (tld : String) : 0 < tldBaseValue tld := by
  unfold tldBaseValue; split_ifs <;> norm_num

theorem lengthMultiplier_pos (length : ℤ) : 0 < lengthMultiplier length := by
  unfold lengthMultiplier; split_ifs <;> norm_num

theorem jsRound_nonneg (q : ℚ) (h : 0 ≤ q) : 0 ≤ jsRound q := by
  unfold jsRound
  rw [Int.le_floor]; push_cast; linarith

theorem rawEstimate_nonneg (domain : String) (score : ℚ) (length : ℤ)
    (extension : String) (hscore : 0 ≤ score) :
    0 ≤ rawEstimate domain score length extension := by
  unfold rawEstimate
  have h1 := tldBaseValue_pos (if extension = "" then domainTld domain else extension)
  have h2 := lengthMultiplier_pos length
  have h3 : 0 ≤ score / 50 := by positivity
  positivity

/-- C7: for every domain, non-negative score, length and top-level domain,
the estimated value is non-negative and is a multiple of the granularity of
the raw estimate's magnitude band (nearest 10 below 100, nearest 50 below
1000, nearest 100 below 10000, else nearest 1000). -/
theorem estimator_nonneg_granularity (domain : String) (score : ℚ) (length : ℤ)
    (extension : String) (hscore : 0 ≤ score) :
    0 ≤ calculateEstimatedValue domain score length extension
    ∧ (rawEstimate domain score length extension < 100 →
        (10 : ℤ) ∣ calculateEstimatedValue domain score length extension)
    ∧ (100 ≤ rawEstimate domain score length extension →
        rawEstimate domain score length extension < 1000 →
        (50 : ℤ) ∣ calculateEstimatedValue domain score length extension)
    ∧ (1000 ≤ rawEstimate domain score length extension →
        rawEstimate domain score length extension < 10000 →
        (100 : ℤ) ∣ calculateEstimatedValue domain score length extension)
    ∧ (10000 ≤ rawEstimate domain score length extension →
        (1000 : ℤ) ∣ calculateEstimatedValue domain score length extension) := by
  have hraw := rawEstimate_nonneg domain score length extension hscore
  refine ⟨?_, ?_, ?_, ?_, ?_⟩
  · unfold calculateEstimatedValue
    split_ifs <;>
      exact mul_nonneg (jsRound_nonneg _ (by positivity)) (by norm_num)
  · intro h
    unfold calculateEstimatedValue
    rw [if_pos h]
    exact dvd_mul_left 10 _
  · intro h1 h2
    unfold calculateEstimatedValue
    rw [if_neg (by linarith), if_pos h2]
    exact dvd_mul_left 50 _
  · intro h1 h2
    unfold calculateEstimatedValue
    rw [if_neg (by linarith), if_neg (by linarith), if_pos h2]
    exact dvd_mul_left 100 _
  · intro h
    unfold calculateEstimatedValue
    rw [if_neg (by linarith), if_neg (by linarith), if_neg (by linarith)]
    exact dvd_mul_left 1000 _

/-- C7 witness: the estimator theorem applied at the concrete input
`("x.com", score 100, length 3, extension "com")`, whose hypothesis
`0 ≤ 100` holds. -/
theorem estimator_nonneg_granularity_witness :
    (0 : ℚ) ≤ 100
    ∧ (0 ≤ calculateEstimatedValue "x.com" 100 3 "com"
      ∧ (rawEstimate "x.com" 100 3 "com" < 100 →
          (10 : ℤ) ∣ calculateEstimatedValue "x.com" 100 3 "com")
      ∧ (100 ≤ rawEstimate "x.com" 100 3 "com" →
          rawEstimate "x.com" 100 3 "com" < 1000 →
          (50 : ℤ) ∣ calculateEstimatedValue "x.com" 100 3 "com")
      ∧ (1000 ≤ rawEstimate "x.com" 100 3 "com" →
          rawEstimate "x.com" 100 3 "com" < 10000 →
          (100 : ℤ) ∣ calculateEstimatedValue "x.com" 100 3 "com")
      ∧ (10000 ≤ rawEstimate "x.com" 100 3 "com" →
          (1000 : ℤ) ∣ calculateEstimatedValue "x.com" 100 3 "com")) :=
  ⟨by norm_num, estimator_nonneg_granularity "x.com" 100 3 "com" (by norm_num)⟩

/-! ## GoDaddy service, mock mode (src/services/godaddyService.js:33-68) -/

/-- Reinterpret an integer as a signed 32-bit value, as JS `<<` and `&` do. -/
def toInt32 (n : ℤ) : ℤ :=
  let m := n % 4294967296
  if m < 2147483648 then m else m - 4294967296

/-- One step of the domain hash (godaddyService.js:37-40):
`a = ((a << 5) - a) + b.charCodeAt(0); return a & a;` — the shift and the
final `& a` coerce to signed 32-bit. -/
def hashStep (a : ℤ) (c : Char) : ℤ := toInt32 (toInt32 (a * 32) - a + c.toNat)

/-- The reduce over the domain's characters (godaddyService.js:37-40). -/
def domainHash (domain : String) : ℤ := domain.toList.foldl hashStep 0

/-- The value cached per domain by `getMockData` (godaddyService.js:42-50). -/
structure MockData where
  available : Bool
  price : ℤ
  currency : String
  period : ℤ
deriving DecidableEq

/-- The mock data generated for a domain on first use
(godaddyService.js:42-50): 33% availability and a price from the hash. -/
def genMockData (domain : String) : MockData :=
  { available := jsRem (domainHash domain) 3 == 0
    price := 10 + jsRem (domainHash domain) 40
    currency := "USD"
    period := 1 }

/-- The `this.mockData` Map of a mock-mode service instance, as an
association list in insertion order. -/
structure GDMockState where
  mockData : List (String × MockData)
deriving DecidableEq

/-- JS `Map.prototype.get` / `has` for the mock store. -/
def mockLookup : List (String × MockData) → String → Option MockData
  | [], _ => none
  | (k, v) :: rest, d => if k = d then some v else mockLookup rest d

/-- `GoDaddyService.getMockData` (godaddyService.js:34-54): return the
cached entry, computing and storing it on first use. -/
def getMockData (s : GDMockState) (domain : String) : MockData × GDMockState :=
  match mockLookup s.mockData domain with
  | some v => (v, s)
  | none => (genMockData domain, ⟨s.mockData ++ [(domain, genMockData domain)]⟩)

/-- The object returned by `checkAvailability` in mock mode
(godaddyService.js:61-67). -/
structure MockAvailability where
  domain : String
  available : Bool
  price : ℤ
  currency : String
  period : ℤ
deriving DecidableEq

/-- `GoDaddyService.checkAvailability`, mock-mode branch
(godaddyService.js:57-68). -/
def checkAvailabilityMock (s : GDMockState) (domain : String) :
    MockAvailability × GDMockState :=
  let r := getMockData s domain
  ({ domain := domain
     available := r.1.available
     price := r.1.price
     currency := r.1.currency
     period := r.1.period }, r.2)

/-- A fresh mock-mode service instance (constructor, godaddyService.js:15). -/
def initMockState : GDMockState := ⟨[]⟩

/-- Run a sequence of mock-mode availability calls for their state effect. -/
def runMockCalls (s : GDMockState) (ds : List String) : GDMockState :=
  ds.foldl (fun st d => (checkAvailabilityMock st d).2) s

/-- Invariant of the mock store: every cached value is the hash-derived one. -/
def MockWF (s : GDMockState) : Prop :=
  ∀ p ∈ s.mockData, p.2 = genMockData p.1

theorem mockLookup_wf {l : List (String × MockData)}
    (hwf : ∀ p ∈ l, p.2 = genMockData p.1) (d : String) (v : MockData)
    (h : mockLookup l d = some v) : v = genMockData d := by
  induction l with
  | nil => simp [mockLookup] at h
  | cons p rest ih =>
    obtain ⟨k, w⟩ := p
    by_cases hk : k = d
    · subst hk
      simp [mockLookup] at h
      have := hwf (k, w) (List.mem_cons_self _ _)
      simp at this
      rw [← h, this]
    · simp [mockLookup, hk] at h
      exact ih (fun p hp => hwf p (List.mem_cons_of_mem _ hp)) h

theorem getMockData_wf (s : GDMockState) (d : String) (hwf : MockWF s) :
    (getMockData s d).1 = genMockData d ∧ MockWF (getMockData s d).2 := by
  unfold getMockData
  cases h : mockLookup s.mockData d with
  | some v =>
    simpa using ⟨mockLookup_wf hwf d v h, hwf⟩
  | none =>
    constructor
    · rfl
    · intro p hp
      simp at hp
      rcases hp with hp | hp
      · exact hwf p hp
      · rw [hp]

theorem runMockCalls_wf (ds : List String) (s : GDMockState) (hwf : MockWF s) :
    MockWF (runMockCalls s ds) := by
  induction ds generalizing s with
  | nil => exact hwf
  | cons d rest ih =>
    exact ih _ ((getMockData_wf s d hwf).2)

theorem checkAvailabilityMock_wf (s : GDMockState) (d : String) (hwf : MockWF s) :
    (checkAvailabilityMock s d).1 =
      { domain := d
        available := (genMockData d).available
        price := (genMockData d).price
        currency := (genMockData d).currency
        period := (genMockData d).period } := by
  simp only [checkAvailabilityMock]
  rw [(getMockData_wf s d hwf).1]

/-- C10: mock mode is deterministic per domain. Whatever two call histories
a mock-mode instance has served, a call for the same domain returns the same
result, namely the value derived from the domain's hash (cached on first
use by `getMockData`). -/
theorem mock_mode_deterministic (ds₁ ds₂ : List String) (d : String) :
    (checkAvailabilityMock (runMockCalls initMockState ds₁) d).1
      = (checkAvailabilityMock (runMockCalls initMockState ds₂) d).1
    ∧ (checkAvailabilityMock (runMockCalls initMockState ds₁) d).1
      = { domain := d
          available := (genMockData d).available
          price := (genMockData d).price
          currency := (genMockData d).currency
          period := (genMockData d).period } := by
  have h0 : MockWF initMockState := by intro p hp; simp [initMockState] at hp
  have h1 := checkAvailabilityMock_wf (runMockCalls initMockState ds₁) d
    (runMockCalls_wf ds₁ _ h0)
  have h2 := checkAvailabilityMock_wf (runMockCalls initMockState ds₂) d
    (runMockCalls_wf ds₂ _ h0)
  exact ⟨h1.trans h2.symm, h1⟩

/-! ## Availability batcher (`GoDaddyService.batchCheckAvailability`
src/services/godaddyService.js:138-165, `chunkArray` 185-191) -/

/-- The object a fulfilled `checkAvailability` promise resolves with
(godaddyService.js:61-67 / 72-78). The lookup itself (mock or live HTTP) is
passed as an oracle; `.error` is a rejected promise carrying its message. -/
structure GDCheckResult where
  domain : String
  available : Bool
  price : Option ℚ
  currency : String
  period : ℤ
deriving DecidableEq

/-- An element of the list returned by `batchCheckAvailability`: either a
fulfilled result (all fields present, no `error`) or the
`{domain, available: false, error}` object pushed for a rejected lookup
(godaddyService.js:150-154); absent JS fields are `none`. -/
structure BatchResult where
  domain : String
  available : Bool
  price : Option ℚ
  currency : Option String
  period : Option ℤ
  error : Option String
deriving DecidableEq

/-- `GoDaddyService.chunkArray` (godaddyService.js:185-191): successive
slices of `size` elements. (The JS loop does not terminate for `size = 0`;
the model is only used, as the claims are only stated, for positive size.) -/
def chunkArray (l : List α) (size : ℕ) : List (List α) :=
  match l with
  | [] => []
  | x :: xs => (x :: xs.take (size - 1)) :: chunkArray (xs.drop (size - 1)) size
termination_by l.length
decreasing_by simp only [List.length_drop, List.length_cons]; omega

/-- How `Promise.allSettled` output is folded into the results list
(godaddyService.js:146-156): a fulfilled lookup contributes its value, a
rejected one contributes the unavailable-with-reason record. -/
def settleOne (lookup : String → Except String GDCheckResult) (domain : String) :
    BatchResult :=
  match lookup domain with
  | .ok r =>
    { domain := r.domain, available := r.available, price := r.price,
      currency := some r.currency, period := some r.period, error := none }
  | .error msg =>
    { domain := domain, available := false, price := none,
      currency := none, period := none, error := some msg }

/-- `GoDaddyService.batchCheckAvailability` (godaddyService.js:138-165):
chunk the domains, settle every lookup of a chunk, append the settled
results in order. (The inter-chunk delay has no effect on the value.) -/
def batchCheckAvailability (lookup : String → Except String GDCheckResult)
    (domains : List String) (concurrency : ℕ) : List BatchResult :=
  ((chunkArray domains concurrency).map (fun chunk => chunk.map (settleOne lookup))).flatten

theorem chunkArray_flatten (n : ℕ) :
    ∀ (l : List α), l.length ≤ n → ∀ size : ℕ, 1 ≤ size →
      (chunkArray l size).flatten = l := by
  induction n with
  | zero =>
    intro l hl size _
    have h : l = [] := List.eq_nil_of_length_eq_zero (Nat.le_zero.mp hl)
    subst h
    simp [chunkArray]
  | succ n ih =>
    intro l hl size hsize
    match l with
    | [] => simp [chunkArray]
    | x :: xs =>
      rw [chunkArray]
      simp only [List.flatten_cons]
      simp only [List.length_cons] at hl
      rw [ih (xs.drop (size - 1)) (by simp only [List.length_drop]; omega) size hsize]
      simp [List.cons_append, List.take_append_drop]

theorem batchCheck_eq_map (lookup : String → Except String GDCheckResult)
    (domains : List String) (concurrency : ℕ) (hc : 1 ≤ concurrency) :
    batchCheckAvailability lookup domains concurrency
      = domains.map (settleOne lookup) := by
  unfold batchCheckAvailability
  rw [← List.map_flatten]
  rw [chunkArray_flatten domains.length domains (le_refl _) concurrency hc]

/-- C5: for every candidate list and positive concurrency, the batcher
returns exactly one result per input candidate in input order (it equals the
pointwise settlement of each candidate's own lookup); a rejected lookup
yields a result flagged unavailable and carrying the rejection reason; and
because each position depends only on its own lookup, forcing a failure at
one domain leaves every other position's result unchanged. -/
theorem batcher_contract (lookup : String → Except String GDCheckResult)
    (domains : List String) (concurrency : ℕ) (hc : 1 ≤ concurrency) :
    (batchCheckAvailability lookup domains concurrency).length = domains.length
    ∧ batchCheckAvailability lookup domains concurrency
        = domains.map (settleOne lookup)
    ∧ (∀ d msg, lookup d = .error msg →
        settleOne lookup d
          = { domain := d, available := false, price := none,
              currency := none, period := none, error := some msg })
    ∧ (∀ (lookup₂ : String → Except String GDCheckResult) (d : String),
        (∀ x, x ≠ d → lookup₂ x = lookup x) →
        ∀ i, domains.get? i ≠ some d →
          (batchCheckAvailability lookup₂ domains concurrency).get? i
            = (batchCheckAvailability lookup domains concurrency).get? i) := by
  have hmap := batchCheck_eq_map lookup domains concurrency hc
  refine ⟨by rw [hmap]; exact List.length_map _ _, hmap, ?_, ?_⟩
  · intro d msg h
    unfold settleOne
    rw [h]
  · intro lookup₂ d hagree i hi
    have hmap₂ := batchCheck_eq_map lookup₂ domains concurrency hc
    rw [hmap, hmap₂, List.get?_map, List.get?_map]
    cases h : domains.get? i with
    | none => rfl
    | some x =>
      rw [h] at hi
      have hx : x ≠ d := fun hxd => hi (by rw [hxd])
      simp only [Option.map_some']
      unfold settleOne
      rw [hagree x hx]

/-- A concrete lookup for the C5 witness: every domain resolves except
"b.com", which rejects with the service's failure message
(godaddyService.js:81). -/
def demoLookup : String → Except String GDCheckResult := fun d =>
  if d = "b.com" then .error "Failed to check domain availability"
  else .ok { domain := d, available := true, price := some 12,
             currency := "USD", period := 1 }

/-- C5 witness: the batcher theorem applied to three concrete domains with
concurrency 2 (so "a.com"/"b.com" share a chunk) and a lookup forced to
fail on "b.com"; the hypothesis `1 ≤ 2` holds. -/
theorem batcher_contract_witness :
    1 ≤ 2
    ∧ ((batchCheckAvailability demoLookup [ "a.com", "b.com", "c.com"] 2).length
          = [ "a.com", "b.com", "c.com"].length
    ∧ batchCheckAvailability demoLookup [ "a.com", "b.com", "c.com"] 2
        = [ "a.com", "b.com", "c.com"].map (settleOne demoLookup)
    ∧ (∀ d msg, demoLookup d = .error msg →
        settleOne demoLookup d
          = { domain := d, available := false, price := none,
              currency := none, period := none, error := some msg })
    ∧ (∀ (lookup₂ : String → Except String GDCheckResult) (d : String),
        (∀ x, x ≠ d → lookup₂ x = demoLookup x) →
        ∀ i, [ "a.com", "b.com", "c.com"].get? i ≠ some d →
          (batchCheckAvailability lookup₂ [ "a.com", "b.com", "c.com"] 2).get? i
            = (batchCheckAvailability demoLookup
                [ "a.com", "b.com", "c.com"] 2).get? i)) :=
  ⟨by norm_num,
    batcher_contract demoLookup [ "a.com", "b.com", "c.com"] 2 (by norm_num)⟩

/-! ## Candidate records and the persistence stage
(`CSVService.saveToDatabase` src/unnamed/part_004:326-454,
`CSVService.checkDomainAvailability` 519-545,
`GoDaddyService.checkDomainAvailability` godaddyService.js:168-182) -/

/-- The record produced by `mapCSVToDatabase` (part_004:124-134). -/
structure Candidate where
  domain : String
  price : Option ℚ
  extension : String
  status : String
  score : ℤ
  drop_time : Option String
  crawl_time : Option String
  tld : String
  length : ℤ
deriving DecidableEq

/-- The `data` object after the availability/scoring mutations in the
`saveToDatabase` loop (part_004:345-376): the candidate plus the
`available` flag and the estimation price. -/
structure ProcessedRecord where
  domain : String
  price : Option ℚ
  extension : String
  status : String
  score : ℤ
  drop_time : Option String
  crawl_time : Option String
  tld : String
  length : ℤ
  available : Bool
  estimation_price : ℤ
deriving DecidableEq

/-- `GoDaddyService.checkDomainAvailability` (godaddyService.js:168-182):
call `checkAvailability` (the oracle), add a status field derived from
availability; any error is caught and becomes `null`. -/
def gdCheckDomainAvailability (lookup : String → Except String GDCheckResult)
    (domain : String) : Option (GDCheckResult × String) :=
  match lookup domain with
  | .error _ => none
  | .ok r => some (r, if r.available then "Available" else "Taken")

/-- `CSVService.checkDomainAvailability` (part_004:519-545): shape the
service response with `||` defaults (`available || false`,
`status || 'Unknown'`, `price || null`, `currency || 'USD'`); a `null`
response or a thrown error gives `null`. -/
def csvCheckDomainAvailability (lookup : String → Except String GDCheckResult)
    (domain : String) : Option Availability :=
  match gdCheckDomainAvailability lookup domain with
  | none => none
  | some (r, status) =>
    some { available := r.available
           status := if status = "" then "Unknown" else status
           price := match r.price with
                    | none => none
                    | some p => if p = 0 then none else some p
           currency := if r.currency = "" then "USD" else r.currency }

/-- The mutation of `data` performed per candidate in the `saveToDatabase`
loop (part_004:345-376). On a successful availability check: overwrite
status, price (`availability.price || data.price`), availability flag,
enhanced score, estimation price. On a failed check (`null`): keep the CSV
status unless it is empty (`data.status || 'Unknown'`), mark unavailable,
keep the old score, and still compute the estimation price. -/
def processCandidate (lookup : String → Except String GDCheckResult)
    (data : Candidate) : ProcessedRecord :=
  match csvCheckDomainAvailability lookup data.domain with
  | some availability =>
    let status := availability.status
    let price := match availability.price with
                 | none => data.price
                 | some p => if p = 0 then data.price else some p
    let score := calculateEnhancedScore data.domain price data.length status
      (some availability)
    { domain := data.domain, price := price, extension := data.extension,
      status := status, score := score, drop_time := data.drop_time,
      crawl_time := data.crawl_time, tld := data.tld, length := data.length,
      available := availability.available,
      estimation_price :=
        calculateEstimatedValue data.domain (score : ℚ) data.length data.extension }
  | none =>
    let status := if data.status = "" then "Unknown" else data.status
    { domain := data.domain, price := data.price, extension := data.extension,
      status := status, score := data.score, drop_time := data.drop_time,
      crawl_time := data.crawl_time, tld := data.tld, length := data.length,
      available := false,
      estimation_price :=
        calculateEstimatedValue data.domain (data.score : ℚ) data.length data.extension }

/-- The store and lookup collaborators of the persistence loop, as oracles:
`lookup` is GoDaddy's `checkAvailability`; `findExisting` is the
`select ... eq('domain', ...)` round trip (`.error` = `checkError`, `.ok b`
= whether a row exists); `update`/`insert` return `some e` on a store error
and `none` on success. -/
structure DbOracle where
  lookup : String → Except String GDCheckResult
  findExisting : String → Except Unit Bool
  update : ProcessedRecord → Option Unit
  insert : ProcessedRecord → Option Unit

/-- Observable events of one `saveToDatabase` run: an external availability
check, and a write (update or insert) to the store. -/
inductive SaveEvent where
  | check (domain : String)
  | upsert (domain : String)
deriving DecidableEq

def SaveEvent.isCheck : SaveEvent → Bool
  | .check _ => true
  | .upsert _ => false

def SaveEvent.isUpsert : SaveEvent → Bool
  | .check _ => false
  | .upsert _ => true

/-- Accumulator of the `saveToDatabase` loop: the four counters
(part_004:330-333), the mutated records, and the event trace. -/
structure SaveAcc where
  checked : ℕ
  inserted : ℕ
  updated : ℕ
  errors : ℕ
  records : List ProcessedRecord
  events : List SaveEvent

/-- One iteration of the `for (const data of parsedData)` loop
(part_004:338-446): count the candidate as checked, run the availability
check and mutations, look up the existing row (an error counts an error and
`continue`s), then update or insert (an error counts an error, success
counts the write). -/
def saveStep (ora : DbOracle) (acc : SaveAcc) (data : Candidate) : SaveAcc :=
  let record := processCandidate ora.lookup data
  let events := acc.events ++ [SaveEvent.check data.domain]
  match ora.findExisting data.domain with
  | .error _ =>
    { acc with
      checked := acc.checked + 1
      errors := acc.errors + 1
      records := acc.records ++ [record]
      events := events }
  | .ok true =>
    match ora.update record with
    | some _ =>
      { acc with
        checked := acc.checked + 1
        errors := acc.errors + 1
        records := acc.records ++ [record]
        events := events ++ [SaveEvent.upsert data.domain] }
    | none =>
      { acc with
        checked := acc.checked + 1
        updated := acc.updated + 1
        records := acc.records ++ [record]
        events := events ++ [SaveEvent.upsert data.domain] }
  | .ok false =>
    match ora.insert record with
    | some _ =>
      { acc with
        checked := acc.checked + 1
        errors := acc.errors + 1
        records := acc.records ++ [record]
        events := events ++ [SaveEvent.upsert data.domain] }
    | none =>
      { acc with
        checked := acc.checked + 1
        inserted := acc.inserted + 1
        records := acc.records ++ [record]
        events := events ++ [SaveEvent.upsert data.domain] }

/-- The summary object returned by `saveToDatabase` (part_004:449). -/
structure SaveSummary where
  checked : ℕ
  inserted : ℕ
  updated : ℕ
  total : ℕ
  errors : ℕ
deriving DecidableEq

/-- `CSVService.saveToDatabase` (part_004:326-454): fold the loop over the
candidates and return the summary, together with the mutated records and the
run's event trace. -/
def saveToDatabase (ora : DbOracle) (parsedData : List Candidate) :
    SaveSummary × List ProcessedRecord × List SaveEvent :=
  let fin := parsedData.foldl (saveStep ora) ⟨0, 0, 0, 0, [], []⟩
  ({ checked := fin.checked, inserted := fin.inserted, updated := fin.updated,
     total := parsedData.length, errors := fin.errors }, fin.records, fin.events)

theorem saveStep_counts (ora : DbOracle) (acc : SaveAcc) (data : Candidate) :
    (saveStep ora acc data).checked = acc.checked + 1
    ∧ (saveStep ora acc data).inserted + (saveStep ora acc data).updated
        + (saveStep ora acc data).errors
      = acc.inserted + acc.updated + acc.errors + 1 := by
  unfold saveStep
  dsimp only
  cases ora.findExisting data.domain with
  | error e => refine ⟨?_, ?_⟩ <;> (dsimp only; try omega)
  | ok b =>
    cases b with
    | true =>
      dsimp only
      cases ora.update (processCandidate ora.lookup data) with
      | some e => refine ⟨?_, ?_⟩ <;> (dsimp only; try omega)
      | none => refine ⟨?_, ?_⟩ <;> (dsimp only; try omega)
    | false =>
      dsimp only
      cases ora.insert (processCandidate ora.lookup data) with
      | some e => refine ⟨?_, ?_⟩ <;> (dsimp only; try omega)
      | none => refine ⟨?_, ?_⟩ <;> (dsimp only; try omega)

/-- Per-candidate contributions of one loop iteration: the record appended
is the candidate's own processed record, and the events appended are its
check followed by its write attempt (no write after a failed row lookup). -/
def candidateEvents (ora : DbOracle) (data : Candidate) : List SaveEvent :=
  SaveEvent.check data.domain ::
    (match ora.findExisting data.domain with
     | .error _ => []
     | .ok _ => [SaveEvent.upsert data.domain])

theorem saveStep_trace (ora : DbOracle) (acc : SaveAcc) (data : Candidate) :
    (saveStep ora acc data).records
        = acc.records ++ [processCandidate ora.lookup data]
    ∧ (saveStep ora acc data).events = acc.events ++ candidateEvents ora data := by
  unfold saveStep candidateEvents
  dsimp only
  cases ora.findExisting data.domain with
  | error e => refine ⟨?_, ?_⟩ <;> (dsimp only; try simp)
  | ok b =>
    cases b with
    | true =>
      dsimp only
      cases ora.update (processCandidate ora.lookup data) with
      | some e => refine ⟨?_, ?_⟩ <;> (dsimp only; try simp)
      | none => refine ⟨?_, ?_⟩ <;> (dsimp only; try simp)
    | false =>
      dsimp only
      cases ora.insert (processCandidate ora.lookup data) with
      | some e => refine ⟨?_, ?_⟩ <;> (dsimp only; try simp)
      | none => refine ⟨?_, ?_⟩ <;> (dsimp only; try simp)

theorem saveLoop_unfold (ora : DbOracle) :
    ∀ (l : List Candidate) (acc : SaveAcc),
      (l.foldl (saveStep ora) acc).checked = acc.checked + l.length
      ∧ (l.foldl (saveStep ora) acc).inserted + (l.foldl (saveStep ora) acc).updated
          + (l.foldl (saveStep ora) acc).errors
        = acc.inserted + acc.updated + acc.errors + l.length
      ∧ (l.foldl (saveStep ora) acc).records
        = acc.records ++ l.map (processCandidate ora.lookup)
      ∧ (l.foldl (saveStep ora) acc).events
        = acc.events ++ l.flatMap (candidateEvents ora)
  | [], acc => by simp
  | d :: l, acc => by
    have h1 := saveStep_counts ora acc d
    have h2 := saveStep_trace ora acc d
    have ih := saveLoop_unfold ora l (saveStep ora acc d)
    simp only [List.foldl_cons, List.length_cons, List.map_cons, List.flatMap_cons]
    refine ⟨by omega, by omega, ?_, ?_⟩
    · rw [ih.2.2.1, h2.1]
      simp
    · rw [ih.2.2.2, h2.2]
      simp

/-- C9: the summary returned by `saveToDatabase` satisfies
`total = |input|`, `checked = inserted + updated + errors` (each iteration
counts the candidate as checked and settles it as exactly one of
inserted/updated/errored), and `checked ≤ total`; all five fields are
naturals, hence non-negative. -/
theorem save_summary_invariant (ora : DbOracle) (parsedData : List Candidate) :
    (saveToDatabase ora parsedData).1.total = parsedData.length
    ∧ (saveToDatabase ora parsedData).1.checked
        = (saveToDatabase ora parsedData).1.inserted
          + (saveToDatabase ora parsedData).1.updated
          + (saveToDatabase ora parsedData).1.errors
    ∧ (saveToDatabase ora parsedData).1.checked
        ≤ (saveToDatabase ora parsedData).1.total := by
  have h := saveLoop_unfold ora parsedData ⟨0, 0, 0, 0, [], []⟩
  dsimp only at h
  unfold saveToDatabase
  refine ⟨rfl, ?_, ?_⟩
  · dsimp only
    omega
  · dsimp only
    omega

/-! ## Stage sequencing (C2) and lookup-failure handling (C3) -/

/-- The claim's stage-sequencing property for a trace: every availability
check precedes every store write. -/
def checksBeforeUpserts (tr : List SaveEvent) : Prop :=
  ∀ (i j : Fin tr.length),
    (tr.get i).isCheck = true → (tr.get j).isUpsert = true → (i : ℕ) < (j : ℕ)

instance (tr : List SaveEvent) : Decidable (checksBeforeUpserts tr) := by
  unfold checksBeforeUpserts
  infer_instance

/-- A store/lookup oracle where every lookup resolves and every row is new. -/
def pipelineOra : DbOracle :=
  { lookup := fun d =>
      .ok { domain := d, available := true, price := some 12,
            currency := "USD", period := 1 }
    findExisting := fun _ => .ok false
    update := fun _ => none
    insert := fun _ => none }

/-- A candidate as `mapCSVToDatabase` produces it (status defaulted to
"Available", part_004:119). -/
def candA : Candidate :=
  { domain := "a.com", price := none, extension := ".com", status := "Available",
    score := 50, drop_time := none, crawl_time := none, tld := ".com", length := 5 }

/-- A second candidate, identical but for the domain. -/
def candB : Candidate :=
  { domain := "b.com", price := none, extension := ".com", status := "Available",
    score := 50, drop_time := none, crawl_time := none, tld := ".com", length := 5 }

/-- C2 counterexample: on a two-candidate run the trace is
check(a), upsert(a), check(b), upsert(b) — the first candidate is persisted
before the second candidate's availability lookup runs, so it is not the
case that all checks of the Checking stage complete before any candidate is
persisted. -/
theorem save_not_stage_sequential :
    ¬ checksBeforeUpserts (saveToDatabase pipelineOra [candA, candB]).2.2 := by
  have h : (saveToDatabase pipelineOra [candA, candB]).2.2
      = [SaveEvent.check "a.com", SaveEvent.upsert "a.com",
         SaveEvent.check "b.com", SaveEvent.upsert "b.com"] := rfl
  rw [h]
  decide

/-- C2 amended: the persistence loop is sequential per candidate, not per
stage: the run's trace is the in-order concatenation of per-candidate
blocks, and each block starts with that candidate's availability check,
followed by its store write (none after a failed row lookup). Within one
candidate check precedes write, but a candidate's write precedes every
later candidate's check. -/
theorem save_per_candidate_sequencing (ora : DbOracle) (parsedData : List Candidate) :
    (saveToDatabase ora parsedData).2.2 = parsedData.flatMap (candidateEvents ora)
    ∧ ∀ data, ∃ rest,
        candidateEvents ora data = SaveEvent.check data.domain :: rest := by
  constructor
  · have h := saveLoop_unfold ora parsedData ⟨0, 0, 0, 0, [], []⟩
    unfold saveToDatabase
    dsimp only
    rw [h.2.2.2]
    rfl
  · intro data
    exact ⟨_, rfl⟩

/-- An oracle whose availability lookup always fails (rejects with the
message thrown by the GoDaddy client, godaddyService.js:81). -/
def failOra : DbOracle :=
  { lookup := fun _ => .error "Failed to check domain availability"
    findExisting := fun _ => .ok false
    update := fun _ => none
    insert := fun _ => none }

/-- C3 counterexample: a candidate whose CSV status is "Available" (the
mapper's default) keeps that status when its lookup fails —
`data.status = data.status || 'Unknown'` (part_004:367) only writes
"Unknown" when the prior status is empty — so the recorded status is not
"Unknown". -/
theorem lookup_failure_status_counterexample :
    (saveToDatabase failOra [candA]).2.1.map ProcessedRecord.status = [ "Available"]
    ∧ (saveToDatabase failOra [candA]).2.1.map ProcessedRecord.status
        ≠ [ "Unknown"] := by
  have h : (saveToDatabase failOra [candA]).2.1.map ProcessedRecord.status
      = [ "Available"] := rfl
  exact ⟨h, by rw [h]; decide⟩

/-- C3 amended: when the lookup for the i-th candidate fails, that
candidate's processed record is flagged unavailable and keeps its prior
status unless that status is empty (then "Unknown"); the failure does not
abort the batch — every candidate of the run is still processed and
counted. -/
theorem lookup_failure_not_aborting (ora : DbOracle) (parsedData : List Candidate)
    (i : ℕ) (d : Candidate) (e : String)
    (hd : parsedData.get? i = some d)
    (hfail : ora.lookup d.domain = .error e) :
    (saveToDatabase ora parsedData).2.1.get? i
        = some (processCandidate ora.lookup d)
    ∧ (processCandidate ora.lookup d).available = false
    ∧ (processCandidate ora.lookup d).status
        = (if d.status = "" then "Unknown" else d.status)
    ∧ (saveToDatabase ora parsedData).1.checked = parsedData.length := by
  have h := saveLoop_unfold ora parsedData ⟨0, 0, 0, 0, [], []⟩
  have hrec : (saveToDatabase ora parsedData).2.1
      = parsedData.map (processCandidate ora.lookup) := by
    unfold saveToDatabase
    dsimp only
    rw [h.2.2.1]
    rfl
  have hproc : processCandidate ora.lookup d
      = { domain := d.domain, price := d.price, extension := d.extension,
          status := if d.status = "" then "Unknown" else d.status,
          score := d.score, drop_time := d.drop_time, crawl_time := d.crawl_time,
          tld := d.tld, length := d.length, available := false,
          estimation_price :=
            calculateEstimatedValue d.domain (d.score : ℚ) d.length d.extension } := by
    unfold processCandidate csvCheckDomainAvailability gdCheckDomainAvailability
    rw [hfail]
  refine ⟨?_, ?_, ?_, ?_⟩
  · rw [hrec, List.get?_map, hd]
    rfl
  · rw [hproc]
  · rw [hproc]
  · unfold saveToDatabase
    dsimp only
    dsimp only at h
    omega

/-- C3 witness: the amended theorem applied to the concrete one-candidate
run in which the lookup rejects; both hypotheses hold by computation. -/
theorem lookup_failure_not_aborting_witness :
    ([candA].get? 0 = some candA)
    ∧ (failOra.lookup candA.domain = .error "Failed to check domain availability")
    ∧ ((saveToDatabase failOra [candA]).2.1.get? 0
          = some (processCandidate failOra.lookup candA)
      ∧ (processCandidate failOra.lookup candA).available = false
      ∧ (processCandidate failOra.lookup candA).status
          = (if candA.status = "" then "Unknown" else candA.status)
      ∧ (saveToDatabase failOra [candA]).1.checked = [candA].length) :=
  ⟨rfl, rfl,
    lookup_failure_not_aborting failOra [candA] 0 candA
      "Failed to check domain availability" rfl rfl⟩

/-! ## Pipeline orchestration (`CSVService.processCSV` src/unnamed/part_004:457-516) -/

/-- Control flow of `processCSV`: the two awaited stages (`parseCSV`,
`saveToDatabase`) are oracles that either return or throw; the second
component counts the `fs.unlinkSync(filePath)` calls performed by the run.
`fileExists` is the `fs.existsSync(filePath)` observation at cleanup time.
On success the file is removed after the save stage (part_004:487-490); any
thrown error is caught, the file is removed in the catch block, and the
error is rethrown (part_004:500-515). (The unlink itself is modelled as
always succeeding; its own error path only swallows the cleanup error.) -/
def processCSV (parseResult : Except String (List Candidate))
    (save : List Candidate → Except String SaveSummary)
    (fileExists : Bool) : Except String SaveSummary × ℕ :=
  match parseResult with
  | .error e => (.error e, if fileExists then 1 else 0)
  | .ok parsedData =>
    match save parsedData with
    | .error e => (.error e, if fileExists then 1 else 0)
    | .ok result => (.ok result, if fileExists then 1 else 0)

/-- C8: when the source CSV file exists at cleanup time, a `processCSV` run
deletes it exactly once — for every combination of stage outcomes, i.e. on
the success path and on every failure path, whichever stage (sampling or
checking/persisting) threw. -/
theorem processCSV_deletes_once (parseResult : Except String (List Candidate))
    (save : List Candidate → Except String SaveSummary) :
    (processCSV parseResult save true).2 = 1 := by
  unfold processCSV
  cases parseResult with
  | error e => rfl
  | ok parsedData =>
    dsimp only
    cases save parsedData <;> rfl

/-! ## CSV sampler/mapper (`CSVService.parseCSV` src/unnamed/part_004:7-86,
`mapCSVToDatabase` 89-139, `parseDate` 211-223) -/

/-- A parsed CSV row (header-driven fields; a missing column is `none`). -/
structure CSVRow where
  domain : Option String
  price : Option String
  drop_time : Option String
  crawl_time : Option String
  extension : Option String
  tld : Option String
  length : Option String
  status : Option String
deriving DecidableEq

/-- `CSVService.parseDate` (part_004:211-223): falsy input gives `null`;
the host `new Date(...)` / `toISOString` conversion is locale- and
implementation-defined and is abstracted as the oracle `jsDate` (invalid
dates give `none`). -/
def parseDate (jsDate : String → Option String) (dateStr : Option String) :
    Option String :=
  match dateStr with
  | none => none
  | some s => if s = "" then none else jsDate s

/-- `CSVService.mapCSVToDatabase` (part_004:89-139): drop the row unless it
has a non-empty domain ending (case-insensitively) in ".com"; parse price,
dates, extension/tld with `||` defaults, length (`parseInt(x) || domain.length`,
where a parsed 0 is falsy), status defaulting to "Available"; score the
candidate. -/
def mapCSVToDatabase (jsDate : String → Option String) (csvRow : CSVRow) :
    Option Candidate :=
  match csvRow.domain with
  | none => none
  | some d0 =>
    let domain := jsTrim d0
    if domain = "" then none
    else if !strEndsWith (jsToLower domain) ".com" then none
    else
      let price := parsePrice csvRow.price
      let dropTime := parseDate jsDate csvRow.drop_time
      let crawlTime := parseDate jsDate csvRow.crawl_time
      let extension := match csvRow.extension with
                       | none => ""
                       | some e => jsTrim e
      let tld := match csvRow.tld with
                 | none => extension
                 | some t => if jsTrim t = "" then extension else jsTrim t
      let length : ℤ := match csvRow.length with
                        | none => (domain.length : ℤ)
                        | some s =>
                          match parseIntJS s with
                          | none => (domain.length : ℤ)
                          | some n => if n = 0 then (domain.length : ℤ) else n
      let status := match csvRow.status with
                    | none => "Available"
                    | some st => if jsTrim st = "" then "Available" else jsTrim st
      some { domain := domain, price := price, extension := extension,
             status := status,
             score := calculateScore domain price length status,
             drop_time := dropTime, crawl_time := crawlTime, tld := tld,
             length := length }

/-- `MAX_DOMAINS` (part_004:11). -/
def MAX_DOMAINS : ℕ := 20

/-- `SAMPLE_SIZE` (part_004:12). -/
def SAMPLE_SIZE : ℕ := 200

/-- The JS array swap `[arr[i], arr[j]] = [arr[j], arr[i]]` (part_004:54);
out-of-range indices (which do not occur in the loop) leave the list
unchanged. -/
def listSwap (l : List α) (i j : ℕ) : List α :=
  match l.get? i, l.get? j with
  | some a, some b => (l.set i b).set j a
  | _, _ => l

/-- The Fisher-Yates loop of `parseCSV` (part_004:52-55): for `i` from
`n-1` down to 1, swap position `i` with a drawn position `j ≤ i`. Each draw
`Math.floor(Math.random() * (i + 1))` — a value in `[0, i]` — is modelled
as `rand i % (i + 1)` for an arbitrary source `rand`. -/
def fisherYatesAux (rand : ℕ → ℕ) : List α → ℕ → List α
  | l, 0 => l
  | l, i + 1 => fisherYatesAux rand (listSwap l (i + 1) (rand (i + 1) % (i + 2))) i

/-- The shuffle of `[...allResults]` (part_004:51-55). -/
def fisherYates (l : List α) (rand : ℕ → ℕ) : List α :=
  fisherYatesAux rand l (l.length - 1)

/-- `CSVService.parseCSV` (part_004:7-86) over the decoded row stream: rows
are processed until `SAMPLE_SIZE` of them have been read, mapped and
filtered by `mapCSVToDatabase`; if more than `MAX_DOMAINS` candidates
remain, exactly `MAX_DOMAINS` are selected as a prefix of the shuffle,
otherwise all are returned. -/
def parseCSV (jsDate : String → Option String) (rand : ℕ → ℕ)
    (rows : List CSVRow) : List Candidate :=
  let allResults := (rows.take SAMPLE_SIZE).filterMap (mapCSVToDatabase jsDate)
  if MAX_DOMAINS < allResults.length then
    (fisherYates allResults rand).take MAX_DOMAINS
  else allResults

theorem set_get_perm (a : α) :
    ∀ (t : List α) (j : ℕ) (b : α), t.get? j = some b →
      List.Perm (b :: t.set j a) (a :: t)
  | [], j, b, h => by simp at h
  | c :: t, 0, b, h => by
    simp only [List.get?_cons_zero, Option.some_inj] at h
    subst h
    simp only [List.set_cons_zero]
    exact List.Perm.swap _ _ _
  | c :: t, j + 1, b, h => by
    simp only [List.get?_cons_succ] at h
    have ih := set_get_perm a t j b h
    simp only [List.set_cons_succ]
    have s1 : List.Perm (b :: c :: t.set j a) (c :: b :: t.set j a) :=
      List.Perm.swap _ _ _
    have s2 : List.Perm (c :: b :: t.set j a) (c :: a :: t) := ih.cons c
    have s3 : List.Perm (c :: a :: t) (a :: c :: t) := List.Perm.swap _ _ _
    exact (s1.trans s2).trans s3

theorem listSwap_perm : ∀ (l : List α) (i j : ℕ), List.Perm (listSwap l i j) l
  | [], i, j => by simp [listSwap]
  | c :: t, 0, 0 => by simp [listSwap]
  | c :: t, 0, j + 1 => by
    unfold listSwap
    simp only [List.get?_cons_zero, List.get?_cons_succ]
    cases h : t.get? j with
    | none => exact List.Perm.refl _
    | some b =>
      simp only [List.set_cons_zero, List.set_cons_succ]
      exact set_get_perm c t j b h
  | c :: t, i + 1, 0 => by
    unfold listSwap
    simp only [List.get?_cons_zero, List.get?_cons_succ]
    cases h : t.get? i with
    | none => exact List.Perm.refl _
    | some a =>
      simp only [List.set_cons_zero, List.set_cons_succ]
      exact set_get_perm c t i a h
  | c :: t, i + 1, j + 1 => by
    have ih := listSwap_perm t i j
    unfold listSwap
    simp only [List.get?_cons_succ]
    unfold listSwap at ih
    cases h1 : t.get? i with
    | none =>
      dsimp only
      exact List.Perm.refl _
    | some a =>
      cases h2 : t.get? j with
      | none =>
        dsimp only
        exact List.Perm.refl _
      | some b =>
        rw [h1, h2] at ih
        simp only [List.set_cons_succ]
        exact ih.cons c

theorem fisherYatesAux_perm (rand : ℕ → ℕ) :
    ∀ (n : ℕ) (l : List α), List.Perm (fisherYatesAux rand l n) l
  | 0, l => List.Perm.refl l
  | n + 1, l =>
    (fisherYatesAux_perm rand n _).trans
      (listSwap_perm l (n + 1) (rand (n + 1) % (n + 2)))

theorem fisherYates_perm (l : List α) (rand : ℕ → ℕ) :
    List.Perm (fisherYates l rand) l :=
  fisherYatesAux_perm rand (l.length - 1) l

/-- C6: over any decoded CSV stream, with `A` the list of candidates mapped
from the sampled window (first `SAMPLE_SIZE` rows): when `A` has more than
`MAX_DOMAINS` elements, the sampler returns exactly `MAX_DOMAINS`
candidates, each an element of `A`, forming a sub-permutation of `A`
(selection without replacement — so no duplicates whenever `A` itself has
none); when `A` has at most `MAX_DOMAINS` elements it is returned
unchanged. -/
theorem sampler_selection (jsDate : String → Option String) (rand : ℕ → ℕ)
    (rows : List CSVRow) :
    (MAX_DOMAINS <
        ((rows.take SAMPLE_SIZE).filterMap (mapCSVToDatabase jsDate)).length →
      (parseCSV jsDate rand rows).length = MAX_DOMAINS
      ∧ (∀ x ∈ parseCSV jsDate rand rows,
          x ∈ (rows.take SAMPLE_SIZE).filterMap (mapCSVToDatabase jsDate))
      ∧ (parseCSV jsDate rand rows).Subperm
          ((rows.take SAMPLE_SIZE).filterMap (mapCSVToDatabase jsDate))
      ∧ (((rows.take SAMPLE_SIZE).filterMap (mapCSVToDatabase jsDate)).Nodup →
          (parseCSV jsDate rand rows).Nodup))
    ∧ (((rows.take SAMPLE_SIZE).filterMap (mapCSVToDatabase jsDate)).length
          ≤ MAX_DOMAINS →
      parseCSV jsDate rand rows
        = (rows.take SAMPLE_SIZE).filterMap (mapCSVToDatabase jsDate)) := by
  set A := (rows.take SAMPLE_SIZE).filterMap (mapCSVToDatabase jsDate) with hA
  constructor
  · intro hlen
    have hperm : List.Perm (fisherYates A rand) A := fisherYates_perm A rand
    have hsel : parseCSV jsDate rand rows = (fisherYates A rand).take MAX_DOMAINS := by
      unfold parseCSV
      rw [← hA, if_pos hlen]
    have hsubperm : ((fisherYates A rand).take MAX_DOMAINS).Subperm A :=
      ((List.take_sublist _ _).subperm).trans hperm.subperm
    refine ⟨?_, ?_, ?_, ?_⟩
    · rw [hsel, List.length_take, hperm.length_eq]
      exact Nat.min_eq_left hlen.le
    · intro x hx
      rw [hsel] at hx
      exact hsubperm.subset hx
    · rw [hsel]
      exact hsubperm
    · intro hnodup
      rw [hsel]
      obtain ⟨m, hm_perm, hm_sub⟩ := hsubperm
      exact hm_perm.nodup (hnodup.sublist hm_sub)
  · intro hlen
    unfold parseCSV
    rw [← hA, if_neg (by omega)]

/-- A concrete CSV row carrying only a ".com" domain, for the C6 witness. -/
def rowA : CSVRow :=
  { domain := some "a.com", price := none, drop_time := none,
    crawl_time := none, extension := none, tld := none, length := none,
    status := none }

/-- C6 witness: the sampler theorem applied to a one-row stream (one mapped
candidate, below the `MAX_DOMAINS` threshold), taking its small branch; the
branch's hypothesis `1 ≤ 20` is discharged by computation. -/
theorem sampler_selection_witness :
    ((([rowA].take SAMPLE_SIZE).filterMap
        (mapCSVToDatabase (fun _ => none))).length ≤ MAX_DOMAINS)
    ∧ parseCSV (fun _ => none) (fun _ => 0) [rowA]
        = ([rowA].take SAMPLE_SIZE).filterMap (mapCSVToDatabase (fun _ => none)) :=
  ⟨by decide,
    (sampler_selection (fun _ => none) (fun _ => 0) [rowA]).2 (by decide)⟩

end MyBackend
